import Mathlib

/-!
Verification of the rustpress plugin runtime core against its specification.

The definitions below are a shallow embedding of the Rust sources:

* `src/core/src/plugin/hook_registry.rs` — the hook registry (host-side truth
  about hook names and required capabilities);
* `src/core/src/plugin/registry.rs` — the plugin registry: loading a plugin
  from RPK data, registering it in the in-memory hook index, the filter and
  action dispatch pipelines, and the permission helpers;
* `src/core/src/plugin/host/posts.rs` and `src/core/src/plugin/host/ai.rs` —
  the host API broker functions `list_categories` and `chat_completion`;
* `src/core/src/rpk.rs` — RPK (zip) package extraction and validation;
* `src/core/src/api/admin_api/plugin_controller.rs` — the admin controller's
  `update_plugin` (the enable/disable path).

Foreign effects (the database, the wasm engine, the injected AI service and
the category-stats query) are modelled as explicit inputs; observable side
effects (which plugins were invoked, whether a collaborator was queried) are
returned as explicit traces.
-/

/-- A hook definition, from `HookDef` in `hook_registry.rs`: the hook's name,
the capability it requires (if any) and its description. -/
structure HookDef where
  name : String
  required_perm : Option String
  description : String
deriving DecidableEq

namespace HookRegistry

/-- The hook registry from `HookRegistry::get_hook_definitions` in
`hook_registry.rs`, as an association list in insertion order. Exactly the
seven hooks the source inserts, with the same required permissions. -/
def get_hook_definitions : List (String × HookDef) :=
  [ ("post_published_filter",
      ⟨"post_published_filter", some "post:write",
        "Triggered after a post is published (receives full post content)"⟩),
    ("list_categories",
      ⟨"list_categories", some "post:list_category",
        "Allows listing of all categories with their post counts"⟩),
    ("action_user_created",
      ⟨"action_user_created", some "user:read",
        "Triggered when a new user is created"⟩),
    ("action_user_login",
      ⟨"action_user_login", some "user:read",
        "Triggered when a user logs in"⟩),
    ("filter_authenticate",
      ⟨"filter_authenticate", some "user:write",
        "Allows modification of authentication process"⟩),
    ("action_system_startup",
      ⟨"action_system_startup", none,
        "Triggered when the system starts up"⟩),
    ("action_system_shutdown",
      ⟨"action_system_shutdown", none,
        "Triggered when the system shuts down"⟩) ]

/-- `HookRegistry::is_valid_hook`: a hook name is valid when the registry
defines it. -/
def is_valid_hook (hook_name : String) : Bool :=
  (get_hook_definitions.lookup hook_name).isSome

/-- `HookRegistry::get_hook_permission`: the permission required for a hook,
`none` when the hook is unknown or requires nothing. -/
def get_hook_permission (hook_name : String) : Option String :=
  (get_hook_definitions.lookup hook_name).bind HookDef.required_perm

end HookRegistry

/-- The plugin manifest, from `dto::plugin::PluginManifest` as the registry
uses it: `package.id`, `package.name`, `package.version`,
`package.description`, `permissions.required` and the list of hooks the
plugin declares (read as `manifest.plugin.hooks` in `registry.rs`). -/
structure PluginManifest where
  packageId : String
  name : String
  version : String
  description : Option String
  permissionsRequired : List String
  hooks : List String
deriving DecidableEq

/-- The durable `granted_permissions` column of a plugin record: absent rows
are `none`; a present JSON value either parses with
`serde_json::from_value::<Vec<String>>` (`strings`) or does not
(`malformed`). -/
inductive StoredGrants
  | strings (perms : List String)
  | malformed
deriving DecidableEq

/-- A plugin record, from `entity::plugins::Model` restricted to the fields
the verified code reads: name, plugin id, version, enabled flag, status
string, the stored manifest, the stored grants and the opaque config. -/
structure PluginsModel where
  name : String
  pluginId : String
  version : String
  enabled : Bool
  status : String
  manifest : Option PluginManifest
  grantedPermissions : Option StoredGrants
  config : Option String
deriving DecidableEq

/-- An in-memory loaded plugin, from `loaded_plugin.rs`: the `component`
handle is opaque, so only its presence is recorded. The `HashSet` of granted
permissions is embedded as a list read up to membership. -/
structure LoadedPlugin where
  pluginId : String
  version : String
  registeredHooks : List String
  componentLoaded : Bool
  grantedPermissions : List String
deriving DecidableEq

/-- `PluginRegistry::load_plugin_from_rpk_data` (`registry.rs` lines 84-134),
given a successfully extracted and parsed archive: `registered_hooks` is the
manifest's hook list taken verbatim (no hook-registry or permission audit);
`granted_permissions` is the stored grants when they parse, and otherwise —
stored value absent or unparseable — the manifest's `permissions.required`. -/
def load_plugin_from_rpk_data (manifest : PluginManifest) (plugin_model : PluginsModel) :
    LoadedPlugin :=
  let granted : List String :=
    match plugin_model.grantedPermissions with
    | some (StoredGrants.strings perms) => perms
    | some StoredGrants.malformed => manifest.permissionsRequired
    | none => manifest.permissionsRequired
  { pluginId := manifest.packageId
    version := manifest.version
    registeredHooks := manifest.hooks
    componentLoaded := true
    grantedPermissions := granted }

/-- Key of the in-memory plugin map: `(plugin_id, version)`. -/
abbrev PluginKey := String × String

/-- The registry's in-memory state (`PluginRegistry.plugins` and
`PluginRegistry.hook_to_plugins`), with the two `HashMap`s embedded as
association lists; for the hook index the bucket order is the push order, as
in the source's `Vec`. -/
structure RegistryState where
  plugins : List (PluginKey × LoadedPlugin)
  hook_to_plugins : List (String × List PluginKey)
deriving DecidableEq

/-- The registry state holding no plugins. -/
def emptyRegistry : RegistryState := ⟨[], []⟩

/-- `HashMap::insert` on the plugin map: replace the entry when the key is
present, append it otherwise. -/
def insertPluginEntry (ps : List (PluginKey × LoadedPlugin)) (k : PluginKey)
    (p : LoadedPlugin) : List (PluginKey × LoadedPlugin) :=
  if (ps.lookup k).isSome then
    ps.map (fun e => if e.1 = k then (k, p) else e)
  else
    ps ++ [(k, p)]

/-- `hook_to_plugins.entry(hook).or_insert_with(Vec::new).push(key)`: append
the key to the hook's bucket, creating the bucket when absent. -/
def pushHookEntry (m : List (String × List PluginKey)) (hook : String) (k : PluginKey) :
    List (String × List PluginKey) :=
  if (m.lookup hook).isSome then
    m.map (fun e => if e.1 = hook then (e.1, e.2 ++ [k]) else e)
  else
    m ++ [(hook, [k])]

/-- `PluginRegistry::register_plugin`: insert the plugin under its
`(plugin_id, version)` key and push that key into the bucket of every hook in
its `registered_hooks`. -/
def register_plugin (st : RegistryState) (p : LoadedPlugin) : RegistryState :=
  { plugins := insertPluginEntry st.plugins (p.pluginId, p.version) p
    hook_to_plugins :=
      p.registeredHooks.foldl (fun m h => pushHookEntry m h (p.pluginId, p.version))
        st.hook_to_plugins }

/-- `PluginRegistry::get_plugins_for_hook`: the hook's bucket, resolved
through the plugin map in bucket order; empty when the hook has no bucket. -/
def get_plugins_for_hook (st : RegistryState) (hook_name : String) : List LoadedPlugin :=
  match st.hook_to_plugins.lookup hook_name with
  | some keys => keys.filterMap (fun k => st.plugins.lookup k)
  | none => []

/-- Outcome of one filter invocation, mirroring the nested result of
`call_handle_filter` in `call_filter_hook`: `ok` for `Ok(Ok(payload))`, `err`
for `Ok(Err(msg))` (the plugin returned an error) and `trap` for `Err(e)`
(the call itself failed). -/
inductive InvokeOutcome (α : Type)
  | ok (result : α)
  | err (msg : String)
  | trap (msg : String)

/-- The error surfaced by `call_filter_hook`, one constructor per `return`
path: `pluginReturnedError` carries the data of
`anyhow!("Plugin {} returned error for {} filter hook: {}", …)`, `callFailed`
the data of `anyhow!("Plugin {} returned error: {}", …)`, and
`instantiateFailure` the error that `get_bindings(…).await?` propagates
unchanged. -/
inductive FilterErr
  | pluginReturnedError (pluginId hook cause : String)
  | callFailed (pluginId cause : String)
  | instantiateFailure (cause : String)
deriving DecidableEq

/-- The hook name an error of `call_filter_hook` carries, if any: only the
`pluginReturnedError` message mentions the hook. -/
def FilterErr.hookOf : FilterErr → Option String
  | FilterErr.pluginReturnedError _ hook _ => some hook
  | FilterErr.callFailed _ _ => none
  | FilterErr.instantiateFailure _ => none

/-- The loop of `call_filter_hook` over the snapshot of plugins: instantiate
(`get_bindings`, aborting on failure via `?`), invoke, fold an `ok` payload
into the next invocation, abort on `err` or `trap`. The second component is
the trace of plugins actually invoked, in order. -/
def filterGo {α : Type} (inst : LoadedPlugin → Except String Unit)
    (inv : LoadedPlugin → α → InvokeOutcome α) (hook_name : String) :
    List LoadedPlugin → α → Except FilterErr α × List String
  | [], data => (Except.ok data, [])
  | p :: rest, data =>
    match inst p with
    | Except.error e => (Except.error (FilterErr.instantiateFailure e), [])
    | Except.ok _ =>
      match inv p data with
      | InvokeOutcome.ok r =>
        let next := filterGo inst inv hook_name rest r
        (next.1, p.pluginId :: next.2)
      | InvokeOutcome.err msg =>
        (Except.error (FilterErr.pluginReturnedError p.pluginId hook_name msg), [p.pluginId])
      | InvokeOutcome.trap msg =>
        (Except.error (FilterErr.callFailed p.pluginId msg), [p.pluginId])

/-- `PluginRegistry::call_filter_hook`: snapshot the plugins registered for
the hook and run the filter loop. `inst` models per-invocation sandbox
instantiation (`get_bindings`), `inv` the plugin's `handle_filter` export. -/
def call_filter_hook {α : Type} (inst : LoadedPlugin → Except String Unit)
    (inv : LoadedPlugin → α → InvokeOutcome α) (st : RegistryState)
    (hook_name : String) (data : α) : Except FilterErr α × List String :=
  filterGo inst inv hook_name (get_plugins_for_hook st hook_name) data

/-- The loop of `call_action_hook`: instantiation failure aborts through `?`;
an invocation's own error is logged and the loop continues either way. The
second component is the trace of plugins actually invoked. -/
def actionGo {β : Type} (inst : LoadedPlugin → Except String Unit)
    (inv : LoadedPlugin → β → Except String Unit) (data : β) :
    List LoadedPlugin → Except String Unit × List String
  | [] => (Except.ok (), [])
  | p :: rest =>
    match inst p with
    | Except.error e => (Except.error e, [])
    | Except.ok _ =>
      match inv p data with
      | Except.ok _ =>
        let next := actionGo inst inv data rest
        (next.1, p.pluginId :: next.2)
      | Except.error _ =>
        let next := actionGo inst inv data rest
        (next.1, p.pluginId :: next.2)

/-- `PluginRegistry::call_action_hook`: snapshot the plugins registered for
the hook and run the action loop. -/
def call_action_hook {β : Type} (inst : LoadedPlugin → Except String Unit)
    (inv : LoadedPlugin → β → Except String Unit) (st : RegistryState)
    (hook_name : String) (data : β) : Except String Unit × List String :=
  actionGo inst inv data (get_plugins_for_hook st hook_name)

/-- The payload produced by running a list of plugins when instantiation and
every invocation succeed; `none` as soon as any step fails. Used to phrase
"every plugin before the failing one succeeded". -/
def runAll {α : Type} (inst : LoadedPlugin → Except String Unit)
    (inv : LoadedPlugin → α → InvokeOutcome α) :
    List LoadedPlugin → α → Option α
  | [], data => some data
  | p :: rest, data =>
    match inst p with
    | Except.error _ => none
    | Except.ok _ =>
      match inv p data with
      | InvokeOutcome.ok r => runAll inst inv rest r
      | InvokeOutcome.err _ => none
      | InvokeOutcome.trap _ => none

/-- The AI service's internal chat response (`dto::openai::ChatCompletionResponse`):
`created` is an `i64`, the usage counters are `i32`, `finish_reason` is
optional. -/
structure DtoChatChoice where
  index : Int
  role : String
  content : String
  finish_reason : Option String

/-- Internal usage part of the AI response (`dto::openai::ChatCompletionUsage`). -/
structure DtoChatUsage where
  prompt_tokens : Int
  completion_tokens : Int
  total_tokens : Int

/-- Internal AI response (`dto::openai::ChatCompletionResponse`). -/
structure DtoChatResponse where
  id : String
  object : String
  created : Int
  model : String
  choices : List DtoChatChoice
  usage : DtoChatUsage

/-- A chat message, shared shape of the WIT and DTO sides (`role`, `content`);
the broker maps the fields one-to-one. -/
structure ChatMessage where
  role : String
  content : String
deriving DecidableEq

/-- The chat-completion request (`model`, `messages`, `max_tokens`), the shape
shared by the WIT import and `dto::openai::ChatCompletionRequest`; the broker
converts field-by-field. -/
structure ChatCompletionRequest where
  model : Option String
  messages : List ChatMessage
  max_tokens : Option Int
deriving DecidableEq

/-- A choice of the WIT-side chat response: `finish_reason` is
`unwrap_or("unknown")`. -/
structure WitChatChoice where
  message : ChatMessage
  finish_reason : String
deriving DecidableEq

/-- WIT-side usage counters (unsigned in the ABI). -/
structure WitChatUsage where
  prompt_tokens : Nat
  completion_tokens : Nat
  total_tokens : Nat
deriving DecidableEq

/-- The WIT-side chat response the broker hands back to the plugin. -/
structure WitChatResponse where
  id : String
  object : String
  created : Nat
  model : String
  choices : List WitChatChoice
  usage : WitChatUsage
deriving DecidableEq

/-- `created.try_into().unwrap_or(0)`: an `i64` into the unsigned 64-bit WIT
field, 0 when the conversion fails. -/
def tryIntoU64 (n : Int) : Nat :=
  if 0 ≤ n ∧ n < 2 ^ 64 then n.toNat else 0

/-- `…_tokens.try_into().unwrap_or(0)`: an `i32` into the unsigned 32-bit WIT
field, 0 when the conversion fails. -/
def tryIntoU32 (n : Int) : Nat :=
  if 0 ≤ n ∧ n < 2 ^ 32 then n.toNat else 0

/-- The response conversion inside `chat_completion` in `host/ai.rs`:
DTO response to WIT response, with `unwrap_or` defaults as in the source. -/
def convertChatResponse (r : DtoChatResponse) : WitChatResponse :=
  { id := r.id
    object := r.object
    created := tryIntoU64 r.created
    model := r.model
    choices := r.choices.map (fun c =>
      { message := { role := c.role, content := c.content }
        finish_reason := c.finish_reason.getD "unknown" })
    usage :=
      { prompt_tokens := tryIntoU32 r.usage.prompt_tokens
        completion_tokens := tryIntoU32 r.usage.completion_tokens
        total_tokens := tryIntoU32 r.usage.total_tokens } }

/-- The host state a broker function sees (`PluginHostState`): the plugin id,
the granted-permission set (a list read up to membership), and the injected
AI collaborator — `none` when AI is unavailable, otherwise the abstract
`AiService::chat_completion` as a function. -/
structure PluginHostState where
  pluginId : String
  grantedPermissions : List String
  ai_helper : Option (ChatCompletionRequest → Except String DtoChatResponse)

/-- `chat_completion` in `host/ai.rs`. The outer `Except` is the
`Result<_, wasmtime::Error>` return: the function constructs only `Ok`, so a
denial or downstream failure is the inner `Except`. The boolean records
whether the injected `AiService::chat_completion` was invoked. -/
def chat_completion (st : PluginHostState) (request : ChatCompletionRequest) :
    Except String (Except String WitChatResponse) × Bool :=
  if "ai:chat" ∉ st.grantedPermissions then
    (Except.ok (Except.error
      ("Plugin '" ++ st.pluginId ++ "' does not have 'ai:chat' permission")), false)
  else
    match st.ai_helper with
    | none => (Except.ok (Except.error "AI functionality is not available"), false)
    | some ai_service =>
      match ai_service
          { model := request.model
            messages := request.messages.map (fun m => { role := m.role, content := m.content })
            max_tokens := request.max_tokens } with
      | Except.ok response => (Except.ok (Except.ok (convertChatResponse response)), true)
      | Except.error e => (Except.ok (Except.error e), true)

/-- One insertion step of the stable sort `categories.sort_by(|a, b| b.1.cmp(&a.1))`
in `host/posts.rs`: keep walking past entries with a strictly larger count,
insert before the first entry whose count is not larger. The element being
inserted precedes every equal-count element further right, which is exactly
the stability of Rust's `sort_by`. -/
def insertByCountDesc (x : String × Int) : List (String × Int) → List (String × Int)
  | [] => [x]
  | y :: ys => if x.2 < y.2 then y :: insertByCountDesc x ys else x :: y :: ys

/-- The stable sort by strictly descending count used by `list_categories`
(Rust's stable `sort_by` with comparator `b.1.cmp(&a.1)` on `(name, count)`
pairs). -/
def sortByCountDesc : List (String × Int) → List (String × Int)
  | [] => []
  | x :: xs => insertByCountDesc x (sortByCountDesc xs)

/-- `list_categories` in `host/posts.rs`: run the injected category-stats
query (`PostgresPostRepository::get_category_stats`, whose outcome is the
`stats` argument), sort by descending count, drop the counts. There is no
capability check in the source; the boolean records that the query was
executed, which happens unconditionally. -/
def list_categories (st : PluginHostState)
    (stats : Except String (List (String × Int))) : Except String (List String) × Bool :=
  match stats with
  | Except.error e => (Except.error e, true)
  | Except.ok categories =>
    (Except.ok ((sortByCountDesc categories).map Prod.fst), true)

/-- `PluginRegistry::get_plugin_permissions` (`registry.rs` lines 544-556):
ignores the plugin id and returns the hard-coded map, here as an association
list in insertion order. -/
def get_plugin_permissions (plugin_id : String) : Except String (List (String × Bool)) :=
  Except.ok [("post:read", true), ("post:write", true), ("ai:chat", true)]

/-- `PluginRegistry::analyze_enable_permissions` (`registry.rs` lines
594-624), applied to the record it looks up: every `permissions.required`
entry of the stored manifest mapped to `"required"`; empty when no manifest
is stored. The plugin's stored grants are never consulted. -/
def analyze_enable_permissions (record : PluginsModel) : List (String × String) :=
  match record.manifest with
  | some m => m.permissionsRequired.map (fun p => (p, "required"))
  | none => []

/-- The body of an admin `update_plugin` request
(`AdminPluginUpdateRequest`). -/
structure AdminPluginUpdateRequest where
  enabled : Option Bool
  config : Option String
deriving DecidableEq

/-- What `update_plugin` produces: the (unchanged) registry state, the
updated record, and the response's `new_permissions` and
`requires_permission_review` fields. -/
structure UpdatePluginResult where
  registry : RegistryState
  record : PluginsModel
  new_permissions : List String
  requires_permission_review : Bool
deriving DecidableEq

/-- `update_plugin` in `api/admin_api/plugin_controller.rs` (lines 81-163):
on an enable request for a record not currently enabled it runs
`analyze_enable_permissions`; it then sets `enabled` from the payload and
`status` to `"enabled"`/`"disabled"` accordingly, stores the config if given,
and reports `requires_permission_review` as "some permission was analyzed".
It makes no call into the plugin registry's loading machinery, so the
registry state passes through unchanged. -/
def update_plugin (st : RegistryState) (record : PluginsModel)
    (payload : AdminPluginUpdateRequest) : UpdatePluginResult :=
  let new_permissions :=
    if payload.enabled = some true ∧ ¬ record.enabled then
      analyze_enable_permissions record
    else []
  let record1 :=
    match payload.enabled with
    | some e =>
      { record with
          enabled := e
          status := if e then "enabled" else "disabled" }
    | none => record
  let record2 :=
    match payload.config with
    | some c => { record1 with config := some c }
    | none => record1
  { registry := st
    record := record2
    new_permissions := new_permissions.map Prod.fst
    requires_permission_review := !new_permissions.isEmpty }

/-- One entry of an RPK (zip) archive: its path inside the archive and, for
the manifest check, what `toml::from_str` would make of its bytes (`none`
when they do not parse as a manifest). -/
structure RpkEntry where
  name : String
  parsed_manifest : Option PluginManifest
deriving DecidableEq

/-- The entry loop of `RpkProcessor::extract_and_validate` (`rpk.rs` lines
117-132): every entry's content is read and recorded under its name; an
entry named `manifest.toml` is parsed, a parse failure aborting. No check of
any kind is made on entry names. -/
def collectRpkEntries : List RpkEntry → Option PluginManifest → List String →
    Except String (Option PluginManifest × List String)
  | [], m, files => Except.ok (m, files)
  | e :: rest, m, files =>
    if e.name = "manifest.toml" then
      match e.parsed_manifest with
      | some man => collectRpkEntries rest (some man) (files ++ [e.name])
      | none => Except.error "failed to parse manifest.toml"
    else
      collectRpkEntries rest m (files ++ [e.name])

/-- `RpkProcessor::extract_and_validate` (`rpk.rs` lines 104-152): collect
all entries, require a manifest, optionally match the expected plugin id,
require a `plugin.wasm` entry, and return the package. -/
def extract_and_validate (entries : List RpkEntry) (expected_plugin_id : Option String) :
    Except String (PluginManifest × List String) :=
  match collectRpkEntries entries none [] with
  | Except.error e => Except.error e
  | Except.ok (none, _) => Except.error "manifest.toml not found in RPK package"
  | Except.ok (some man, files) =>
    match expected_plugin_id with
    | some eid =>
      if man.packageId ≠ eid then
        Except.error "Manifest ID does not match expected plugin ID"
      else if files.contains "plugin.wasm" then Except.ok (man, files)
      else Except.error "plugin.wasm not found in RPK package"
    | none =>
      if files.contains "plugin.wasm" then Except.ok (man, files)
      else Except.error "plugin.wasm not found in RPK package"

/-- Split a character list at `/`, accumulating the current component. -/
def splitSlashGo : List Char → List Char → List String
  | [], acc => [⟨acc.reverse⟩]
  | c :: cs, acc =>
    if c = '/' then ⟨acc.reverse⟩ :: splitSlashGo cs []
    else splitSlashGo cs (c :: acc)

/-- A path split into `/`-separated components, as `PathBuf` sees an archive
entry name. -/
def splitPath (s : String) : List String := splitSlashGo s.data []

/-- Whether a path string is absolute (begins with `/`). -/
def isAbsolutePath (s : String) : Bool :=
  match s.data with
  | c :: _ => c = '/'
  | [] => false

/-- `extract_dir.join(file_in_zip.name())` in the extraction loop of
`load_plugin_from_rpk_data` (`registry.rs` lines 60-82): joining an absolute
name replaces the base path entirely, any other name is appended. -/
def joinUnder (base : List String) (name : String) : List String :=
  if isAbsolutePath name then splitPath name else base ++ splitPath name

/-- Lexical resolution of a component path: `..` pops a component, `.` and
empty components vanish. -/
def resolvePath (cs : List String) : List String :=
  cs.foldl
    (fun acc c =>
      if c = ".." then acc.dropLast
      else if c = "." ∨ c = "" then acc
      else acc ++ [c]) []

/-- Whether writing archive entry `name` under `base` escapes `base`: the
resolved target is not under the resolved base. -/
def escapesDir (base : List String) (name : String) : Bool :=
  ! (resolvePath base).isPrefixOf (resolvePath (joinUnder base name))

/-- Byte-wise ≤ on character lists (the order Rust's `str` comparison gives
on ASCII names). -/
def strLeChars : List Char → List Char → Bool
  | [], _ => true
  | _ :: _, [] => false
  | c :: cs, d :: ds =>
    if c.toNat < d.toNat then true
    else if d.toNat < c.toNat then false
    else strLeChars cs ds

/-- Byte-wise ≤ on strings. -/
def strLe (a b : String) : Bool := strLeChars a.data b.data

/-- Modelled from the spec's words, for comparison with the source's sort
only: `a` precedes `b` when `a` has the larger count, or on a tie when `a`'s
name is lexicographically ≤. -/
def specCatBefore (a b : String × Int) : Bool :=
  if b.2 < a.2 then true
  else if a.2 = b.2 then strLe a.1 b.1
  else false

/-- Insertion step of the spec-side sort. -/
def specInsertCat (x : String × Int) : List (String × Int) → List (String × Int)
  | [] => [x]
  | y :: ys => if specCatBefore y x then y :: specInsertCat x ys else x :: y :: ys

/-- The spec-side sort: descending count, ties by ascending name. -/
def specSortCats : List (String × Int) → List (String × Int)
  | [] => []
  | x :: xs => specInsertCat x (specSortCats xs)

/-- Modelled from the spec's words: the category names `list_categories` is
documented to return — sorted by descending post count, ties broken by
lexicographically ascending name. -/
def spec_list_categories (stats : List (String × Int)) : List String :=
  (specSortCats stats).map Prod.fst

/-- A loaded plugin with the given id and hooks, version `1.0.0`, no granted
permissions. -/
def mkPlugin (id : String) (hooks : List String) : LoadedPlugin :=
  ⟨id, "1.0.0", hooks, true, []⟩

/-- Manifest of a plugin that declares `post_published_filter` but requires
(and is granted) no capability at all. -/
def manifestNoPerm : PluginManifest :=
  ⟨"com.example.noperm", "No Perm", "1.0.0", none, [], ["post_published_filter"]⟩

/-- Record for `manifestNoPerm` whose stored grants parse as the empty list. -/
def modelNoPerm : PluginsModel :=
  ⟨"com.example.noperm", "com.example.noperm", "1.0.0", true, "enabled",
    some manifestNoPerm, some (StoredGrants.strings []), none⟩

/-- Registry with filter plugins `f1` then `f2` on `post_published_filter`. -/
def stFilters : RegistryState :=
  register_plugin (register_plugin emptyRegistry (mkPlugin "f1" ["post_published_filter"]))
    (mkPlugin "f2" ["post_published_filter"])

/-- Sandbox instantiation that always succeeds. -/
def instAllOk : LoadedPlugin → Except String Unit := fun _ => Except.ok ()

/-- Filter behaviour where `f1` traps with cause `bad` and every other plugin
passes the payload through. -/
def invTrapF1 : LoadedPlugin → Nat → InvokeOutcome Nat := fun p d =>
  if p.pluginId = "f1" then InvokeOutcome.trap "bad" else InvokeOutcome.ok d

/-- Registry with the single filter plugin `g1` on `post_published_filter`. -/
def stOneFilter : RegistryState :=
  register_plugin emptyRegistry (mkPlugin "g1" ["post_published_filter"])

/-- Filter behaviour where `g1` returns the plugin-level error `boom`. -/
def invErrG1 : LoadedPlugin → Nat → InvokeOutcome Nat := fun p d =>
  if p.pluginId = "g1" then InvokeOutcome.err "boom" else InvokeOutcome.ok d

/-- Registry with action plugins `p1`, `p2`, `p3` on `action_post_published`,
registered in that order. -/
def stActions : RegistryState :=
  register_plugin
    (register_plugin (register_plugin emptyRegistry (mkPlugin "p1" ["action_post_published"]))
      (mkPlugin "p2" ["action_post_published"]))
    (mkPlugin "p3" ["action_post_published"])

/-- Sandbox instantiation failing for `p2` only. -/
def instFailP2 : LoadedPlugin → Except String Unit := fun p =>
  if p.pluginId = "p2" then Except.error "instantiate failed" else Except.ok ()

/-- Action behaviour that always succeeds. -/
def invActionOk : LoadedPlugin → Nat → Except String Unit := fun _ _ => Except.ok ()

/-- Action behaviour where `p2` returns an error and the others succeed. -/
def invActionFailP2 : LoadedPlugin → Nat → Except String Unit := fun p _ =>
  if p.pluginId = "p2" then Except.error "boom" else Except.ok ()

/-- An injected AI service that records being reached by erring. -/
def aiServiceUnreached : ChatCompletionRequest → Except String DtoChatResponse :=
  fun _ => Except.error "service reached"

/-- Host state of plugin `demo` with no granted capabilities and the AI
service available. -/
def stNoChat : PluginHostState := ⟨"demo", [], some aiServiceUnreached⟩

/-- A minimal chat request. -/
def reqDemo : ChatCompletionRequest := ⟨none, [⟨"user", "hi"⟩], none⟩

/-- Host state of plugin `demo2` with no granted capabilities at all. -/
def stNoCaps : PluginHostState := ⟨"demo2", [], none⟩

/-- A syntactically valid manifest for the traversal archive. -/
def manifestEvil : PluginManifest :=
  ⟨"com.example.evil", "Evil", "1.0.0", none, [], []⟩

/-- An archive holding a valid manifest, a `plugin.wasm`, and an entry whose
path climbs out of the extraction directory. -/
def archiveEvil : List RpkEntry :=
  [⟨"manifest.toml", some manifestEvil⟩, ⟨"plugin.wasm", none⟩, ⟨"../evil.sh", none⟩]

/-- The temporary extraction directory of `load_plugin_from_rpk_data`. -/
def extractDirTemp : List String := ["plugins", ".cache", "temp_1"]

/-- Manifest requiring `post:write`. -/
def manifestNeedsWrite : PluginManifest :=
  ⟨"com.example.writer", "Writer", "1.0.0", none, ["post:write"], ["post_published_filter"]⟩

/-- A disabled record for `manifestNeedsWrite` with no grants stored: its
granted set is certainly not a superset of the required set. -/
def recordDisabledNoGrants : PluginsModel :=
  ⟨"com.example.writer", "com.example.writer", "1.0.0", false, "disabled",
    some manifestNeedsWrite, none, none⟩

/-- An admin request that enables the plugin. -/
def payloadEnable : AdminPluginUpdateRequest := ⟨some true, none⟩

/-- Category statistics with two categories tied at five posts, the
lexicographically larger name first. -/
def tieStats : List (String × Int) := [("b", 5), ("a", 5)]

theorem filterGo_runAll_ok {α : Type} (inst : LoadedPlugin → Except String Unit)
    (inv : LoadedPlugin → α → InvokeOutcome α) (hook_name : String) :
    ∀ (l : List LoadedPlugin) (d out : α), runAll inst inv l d = some out →
      filterGo inst inv hook_name l d = (Except.ok out, l.map LoadedPlugin.pluginId) := by
  intro l
  induction l with
  | nil =>
    intro d out h
    simp only [runAll, Option.some.injEq] at h
    subst h
    simp [filterGo]
  | cons p rest ih =>
    intro d out h
    simp only [runAll] at h
    cases hinst : inst p with
    | error e => simp [hinst] at h
    | ok u =>
      simp only [hinst] at h
      cases hinv : inv p d with
      | ok r =>
        simp only [hinv] at h
        simp [filterGo, hinst, hinv, ih r out h]
      | err m => simp [hinv] at h
      | trap m => simp [hinv] at h

theorem filterGo_append {α : Type} (inst : LoadedPlugin → Except String Unit)
    (inv : LoadedPlugin → α → InvokeOutcome α) (hook_name : String) :
    ∀ (pre rest : List LoadedPlugin) (d mid : α), runAll inst inv pre d = some mid →
      filterGo inst inv hook_name (pre ++ rest) d =
        ((filterGo inst inv hook_name rest mid).1,
          pre.map LoadedPlugin.pluginId ++ (filterGo inst inv hook_name rest mid).2) := by
  intro pre
  induction pre with
  | nil =>
    intro rest d mid h
    simp only [runAll, Option.some.injEq] at h
    subst h
    simp
  | cons p ps ih =>
    intro rest d mid h
    simp only [runAll] at h
    cases hinst : inst p with
    | error e => simp [hinst] at h
    | ok u =>
      simp only [hinst] at h
      cases hinv : inv p d with
      | ok r =>
        simp only [hinv] at h
        simp [filterGo, hinst, hinv, ih rest r mid h]
      | err m => simp [hinv] at h
      | trap m => simp [hinv] at h

theorem actionGo_all_ok {β : Type} (inst : LoadedPlugin → Except String Unit)
    (inv : LoadedPlugin → β → Except String Unit) (data : β) :
    ∀ (l : List LoadedPlugin), (∀ p ∈ l, inst p = Except.ok ()) →
      actionGo inst inv data l = (Except.ok (), l.map LoadedPlugin.pluginId) := by
  intro l
  induction l with
  | nil => intro _; simp [actionGo]
  | cons p rest ih =>
    intro h
    have hp : inst p = Except.ok () := h p (by simp)
    have hrest : ∀ q ∈ rest, inst q = Except.ok () := fun q hq => h q (by simp [hq])
    cases hinv : inv p data with
    | ok u => simp [actionGo, hp, hinv, ih hrest]
    | error e => simp [actionGo, hp, hinv, ih hrest]

theorem insertByCountDesc_perm (x : String × Int) :
    ∀ l : List (String × Int), (insertByCountDesc x l).Perm (x :: l) := by
  intro l
  induction l with
  | nil => simp [insertByCountDesc]
  | cons y ys ih =>
    by_cases hxy : x.2 < y.2
    · simp only [insertByCountDesc, if_pos hxy]
      exact (ih.cons y).trans (List.Perm.swap x y ys)
    · simp [insertByCountDesc, if_neg hxy]

theorem sortByCountDesc_perm : ∀ l, (sortByCountDesc l).Perm l := by
  intro l
  induction l with
  | nil => simp [sortByCountDesc]
  | cons x xs ih =>
    exact (insertByCountDesc_perm x (sortByCountDesc xs)).trans (ih.cons x)

theorem mem_insertByCountDesc {x y : String × Int} {l : List (String × Int)} :
    y ∈ insertByCountDesc x l ↔ y = x ∨ y ∈ l := by
  rw [(insertByCountDesc_perm x l).mem_iff]
  simp

theorem pairwise_insertByCountDesc (x : String × Int) :
    ∀ l : List (String × Int), l.Pairwise (fun a b => b.2 ≤ a.2) →
      (insertByCountDesc x l).Pairwise (fun a b => b.2 ≤ a.2) := by
  intro l
  induction l with
  | nil => intro _; simp [insertByCountDesc]
  | cons y ys ih =>
    intro h
    rw [List.pairwise_cons] at h
    obtain ⟨h1, h2⟩ := h
    by_cases hxy : x.2 < y.2
    · simp only [insertByCountDesc, if_pos hxy]
      rw [List.pairwise_cons]
      refine ⟨?_, ih h2⟩
      intro z hz
      rcases mem_insertByCountDesc.mp hz with rfl | hz'
      · exact le_of_lt hxy
      · exact h1 z hz'
    · simp only [insertByCountDesc, if_neg hxy]
      rw [List.pairwise_cons]
      refine ⟨?_, ?_⟩
      · intro z hz
        rcases List.mem_cons.mp hz with rfl | hz'
        · exact le_of_not_lt hxy
        · exact le_trans (h1 z hz') (le_of_not_lt hxy)
      · rw [List.pairwise_cons]
        exact ⟨h1, h2⟩

theorem pairwise_sortByCountDesc : ∀ l, (sortByCountDesc l).Pairwise (fun a b => b.2 ≤ a.2) := by
  intro l
  induction l with
  | nil => simp [sortByCountDesc]
  | cons x xs ih => exact pairwise_insertByCountDesc x _ ih

theorem filter_insertByCountDesc (x : String × Int) (c : Int) :
    ∀ l : List (String × Int), (insertByCountDesc x l).filter (fun p => p.2 == c) =
      if x.2 = c then x :: l.filter (fun p => p.2 == c)
      else l.filter (fun p => p.2 == c) := by
  intro l
  induction l with
  | nil => by_cases hx : x.2 = c <;> simp [insertByCountDesc, hx]
  | cons y ys ih =>
    by_cases hxy : x.2 < y.2
    · simp only [insertByCountDesc, if_pos hxy]
      by_cases hy : y.2 = c
      · by_cases hx : x.2 = c
        · exfalso
          rw [hx, hy] at hxy
          exact lt_irrefl c hxy
        · simp [List.filter_cons, hy, hx, ih]
      · by_cases hx : x.2 = c <;> simp [List.filter_cons, hy, hx, ih]
    · simp only [insertByCountDesc, if_neg hxy]
      by_cases hx : x.2 = c <;> simp [List.filter_cons, hx]

theorem filter_sortByCountDesc (c : Int) :
    ∀ l : List (String × Int), (sortByCountDesc l).filter (fun p => p.2 == c) =
      l.filter (fun p => p.2 == c) := by
  intro l
  induction l with
  | nil => simp [sortByCountDesc]
  | cons x xs ih =>
    rw [sortByCountDesc, filter_insertByCountDesc]
    by_cases hx : x.2 = c <;> simp [List.filter_cons, hx, ih]

/-- C1: the hook-permission soundness invariant fails on the code. The load
path (`load_plugin_from_rpk_data` followed by `register_plugin`) registers
every manifest hook without consulting the hook registry or the granted set:
a plugin whose stored grants parse to the empty set and whose manifest
declares `post_published_filter` (required capability `post:write`) still
gets that hook into `registered_hooks` and into the hook index. -/
theorem hook_permission_soundness_violated_on_load :
    (load_plugin_from_rpk_data manifestNoPerm modelNoPerm).registeredHooks
        = ["post_published_filter"]
    ∧ HookRegistry.get_hook_permission "post_published_filter" = some "post:write"
    ∧ "post:write" ∉ (load_plugin_from_rpk_data manifestNoPerm modelNoPerm).grantedPermissions
    ∧ (get_plugins_for_hook
          (register_plugin emptyRegistry (load_plugin_from_rpk_data manifestNoPerm modelNoPerm))
          "post_published_filter").map LoadedPlugin.pluginId = ["com.example.noperm"] := by
  exact ⟨rfl, rfl, by decide, rfl⟩

/-- C2: `list_categories` has no capability check. For a host state with no
granted capabilities at all, the broker still executes the category-stats
query and returns the category names instead of the documented denial. -/
theorem list_categories_ignores_capability :
    "post:list_category" ∉ stNoCaps.grantedPermissions
    ∧ list_categories stNoCaps (Except.ok [("a", 1)]) = (Except.ok ["a"], true) := by
  exact ⟨by decide, rfl⟩

/-- C3: enabling a plugin whose granted capabilities are not a superset of
the manifest's required set does not set `pending_review`. The controller's
`update_plugin` flips the record to `enabled = true, status = "enabled"`,
merely reporting `requires_permission_review = true`; the registry state
passes through unchanged (no bytecode load, hook index untouched). -/
theorem enable_with_missing_grants_sets_enabled_status :
    recordDisabledNoGrants.grantedPermissions = none
    ∧ manifestNeedsWrite.permissionsRequired = ["post:write"]
    ∧ update_plugin emptyRegistry recordDisabledNoGrants payloadEnable
        = { registry := emptyRegistry
            record := { recordDisabledNoGrants with enabled := true, status := "enabled" }
            new_permissions := ["post:write"]
            requires_permission_review := true }
    ∧ (update_plugin emptyRegistry recordDisabledNoGrants payloadEnable).record.status
        ≠ "pending_review" := by
  exact ⟨rfl, rfl, by decide, by decide⟩

/-- C4 (counterexample): when a filter plugin traps, the surfaced error does
not identify the hook. With `f1` and `f2` registered for
`post_published_filter` and `f1` trapping with cause `bad`, the dispatcher
aborts before `f2` — but the error it returns
(`anyhow!("Plugin {} returned error: {}", …)`) carries only the plugin id and
the cause, no hook. -/
theorem filter_trap_error_omits_hook :
    (get_plugins_for_hook stFilters "post_published_filter").map LoadedPlugin.pluginId
        = ["f1", "f2"]
    ∧ call_filter_hook instAllOk invTrapF1 stFilters "post_published_filter" 0
        = (Except.error (FilterErr.callFailed "f1" "bad"), ["f1"])
    ∧ FilterErr.hookOf (FilterErr.callFailed "f1" "bad") = none := by
  exact ⟨rfl, rfl, rfl⟩

/-- C4 (amended): the filter pipeline folds each plugin's payload into the
next invocation and aborts at the first failure, invoking no later plugin.
The surfaced error names the failing plugin, the cause, and — only when the
plugin returned an error rather than trapped — the hook. -/
theorem call_filter_hook_abort_and_fold {α : Type} (inst : LoadedPlugin → Except String Unit)
    (inv : LoadedPlugin → α → InvokeOutcome α) (st : RegistryState) (hook_name : String)
    (data : α) :
    (∀ out, runAll inst inv (get_plugins_for_hook st hook_name) data = some out →
        call_filter_hook inst inv st hook_name data
          = (Except.ok out, (get_plugins_for_hook st hook_name).map LoadedPlugin.pluginId))
    ∧ (∀ pre p post mid cause, get_plugins_for_hook st hook_name = pre ++ p :: post →
        runAll inst inv pre data = some mid → inst p = Except.ok () →
        inv p mid = InvokeOutcome.err cause →
        call_filter_hook inst inv st hook_name data
          = (Except.error (FilterErr.pluginReturnedError p.pluginId hook_name cause),
              pre.map LoadedPlugin.pluginId ++ [p.pluginId]))
    ∧ (∀ pre p post mid cause, get_plugins_for_hook st hook_name = pre ++ p :: post →
        runAll inst inv pre data = some mid → inst p = Except.ok () →
        inv p mid = InvokeOutcome.trap cause →
        call_filter_hook inst inv st hook_name data
          = (Except.error (FilterErr.callFailed p.pluginId cause),
              pre.map LoadedPlugin.pluginId ++ [p.pluginId])) := by
  refine ⟨?_, ?_, ?_⟩
  · intro out h
    unfold call_filter_hook
    exact filterGo_runAll_ok inst inv hook_name _ data out h
  · intro pre p post mid cause hsplit hpre hinst hinv
    unfold call_filter_hook
    rw [hsplit, filterGo_append inst inv hook_name pre (p :: post) data mid hpre]
    simp [filterGo, hinst, hinv]
  · intro pre p post mid cause hsplit hpre hinst hinv
    unfold call_filter_hook
    rw [hsplit, filterGo_append inst inv hook_name pre (p :: post) data mid hpre]
    simp [filterGo, hinst, hinv]

/-- Witness for the amended C4: a single plugin returning the error `boom` on
`post_published_filter` yields the fully attributed error and a trace of just
that plugin. -/
theorem call_filter_hook_abort_and_fold_witness :
    call_filter_hook instAllOk invErrG1 stOneFilter "post_published_filter" 7
      = (Except.error (FilterErr.pluginReturnedError "g1" "post_published_filter" "boom"),
          ["g1"]) := by
  have h := (call_filter_hook_abort_and_fold instAllOk invErrG1 stOneFilter
      "post_published_filter" 7).2.1 [] (mkPlugin "g1" ["post_published_filter"]) [] 7 "boom"
      rfl rfl rfl rfl
  simpa [mkPlugin] using h

/-- C5 (counterexample): a sandbox-instantiation failure does not get
swallowed. With `p1`, `p2`, `p3` registered for `action_post_published` and
instantiation failing for `p2`, the dispatcher returns the error and invokes
only `p1`: `p2` and `p3` never run. -/
theorem action_hook_instantiate_failure_aborts :
    (get_plugins_for_hook stActions "action_post_published").map LoadedPlugin.pluginId
        = ["p1", "p2", "p3"]
    ∧ call_action_hook instFailP2 invActionOk stActions "action_post_published" 0
        = (Except.error "instantiate failed", ["p1"]) := by
  exact ⟨rfl, rfl⟩

/-- C5 (amended): when every registered plugin's sandbox instantiation
succeeds, the action dispatcher invokes all of them exactly once, in
registration order, and returns `Ok(())` no matter how many invocations
err or trap; an instantiation failure instead aborts the dispatch. -/
theorem call_action_hook_invokes_all_when_instantiation_succeeds {β : Type}
    (inst : LoadedPlugin → Except String Unit) (inv : LoadedPlugin → β → Except String Unit)
    (st : RegistryState) (hook_name : String) (data : β)
    (h : ∀ p ∈ get_plugins_for_hook st hook_name, inst p = Except.ok ()) :
    call_action_hook inst inv st hook_name data
      = (Except.ok (), (get_plugins_for_hook st hook_name).map LoadedPlugin.pluginId) := by
  unfold call_action_hook
  exact actionGo_all_ok inst inv data _ h

/-- Witness for the amended C5, the spec's scenario S4: three plugins, the
second one erring; all three are invoked and the dispatcher returns ok. -/
theorem call_action_hook_invokes_all_when_instantiation_succeeds_witness :
    call_action_hook instAllOk invActionFailP2 stActions "action_post_published" 0
      = (Except.ok (), ["p1", "p2", "p3"]) := by
  have h := call_action_hook_invokes_all_when_instantiation_succeeds instAllOk invActionFailP2
      stActions "action_post_published" 0 (fun p _ => rfl)
  have e : (get_plugins_for_hook stActions "action_post_published").map LoadedPlugin.pluginId
      = ["p1", "p2", "p3"] := rfl
  rw [e] at h
  exact h

/-- C6: `chat_completion` never produces a host-level trap (its outer result
is always `Ok`), and without the `ai:chat` capability it returns the typed
denial naming the plugin, with the injected `AiService` not invoked. -/
theorem chat_completion_denies_without_capability (st : PluginHostState)
    (request : ChatCompletionRequest) :
    (∃ inner, (chat_completion st request).1 = Except.ok inner)
    ∧ ("ai:chat" ∉ st.grantedPermissions →
        chat_completion st request
          = (Except.ok (Except.error
              ("Plugin '" ++ st.pluginId ++ "' does not have 'ai:chat' permission")), false)) := by
  constructor
  · unfold chat_completion
    split
    · exact ⟨_, rfl⟩
    · split
      · exact ⟨_, rfl⟩
      · split <;> exact ⟨_, rfl⟩
  · intro h
    unfold chat_completion
    rw [if_pos h]

/-- Witness for C6: the `demo` plugin with no grants and a live AI
collaborator receives exactly the denial string, and the collaborator is not
called. -/
theorem chat_completion_denies_without_capability_witness :
    chat_completion stNoChat reqDemo
      = (Except.ok (Except.error "Plugin 'demo' does not have 'ai:chat' permission"), false) := by
  have h := (chat_completion_denies_without_capability stNoChat reqDemo).2 (by decide)
  exact h

/-- C7: package extraction does not reject path traversal. An archive with a
valid manifest, a `plugin.wasm` and the entry `../evil.sh` passes
`extract_and_validate` (there is no `UnsafePath` error in the code at all),
and the extraction loop's `extract_dir.join(name)` resolves that entry to a
path outside the extraction directory. -/
theorem extract_accepts_path_traversal :
    extract_and_validate archiveEvil none
        = Except.ok (manifestEvil, ["manifest.toml", "plugin.wasm", "../evil.sh"])
    ∧ escapesDir extractDirTemp "../evil.sh" = true
    ∧ resolvePath (joinUnder extractDirTemp "../evil.sh")
        = ["plugins", ".cache", "evil.sh"] := by
  exact ⟨rfl, by decide, by decide⟩

/-- C8 (counterexample): ties are not broken lexicographically. With the
category stats `[("b", 5), ("a", 5)]` the broker returns `["b", "a"]` (the
stable sort keeps the query's order on equal counts), while the spec's
ordering demands `["a", "b"]`. -/
theorem list_categories_tie_order_not_lexicographic :
    (list_categories stNoCaps (Except.ok tieStats)).1 = Except.ok ["b", "a"]
    ∧ spec_list_categories tieStats = ["a", "b"]
    ∧ (["b", "a"] : List String) ≠ ["a", "b"] := by
  exact ⟨rfl, by decide, by decide⟩

/-- C8 (amended): on success `list_categories` returns the names of the
stats sorted by non-increasing post count, and the sort is stable: for every
count, the entries with that count keep exactly the order in which the
injected query returned them; the sorted list is a permutation of the
input. -/
theorem list_categories_sorted_desc_stable (st : PluginHostState) (l : List (String × Int)) :
    (list_categories st (Except.ok l)).1 = Except.ok ((sortByCountDesc l).map Prod.fst)
    ∧ (sortByCountDesc l).Pairwise (fun a b => b.2 ≤ a.2)
    ∧ (∀ c, (sortByCountDesc l).filter (fun p => p.2 == c) = l.filter (fun p => p.2 == c))
    ∧ (sortByCountDesc l).Perm l := by
  exact ⟨rfl, pairwise_sortByCountDesc l, fun c => filter_sortByCountDesc c l,
    sortByCountDesc_perm l⟩

/-- C9: when the stored `granted_permissions` is absent or does not parse as
a list of strings, the loaded plugin's granted set is exactly the manifest's
`permissions.required` — every self-requested capability is granted. -/
theorem missing_or_invalid_grants_default_to_manifest_required
    (manifest : PluginManifest) (plugin_model : PluginsModel)
    (h : plugin_model.grantedPermissions = none
        ∨ plugin_model.grantedPermissions = some StoredGrants.malformed) :
    ∀ c, c ∈ (load_plugin_from_rpk_data manifest plugin_model).grantedPermissions
        ↔ c ∈ manifest.permissionsRequired := by
  rcases h with h | h <;> intro c <;> simp [load_plugin_from_rpk_data, h]

/-- Witness for C9: the record with no stored grants gets `post:write` — the
capability its manifest requests — in its granted set. -/
theorem missing_or_invalid_grants_default_to_manifest_required_witness :
    "post:write" ∈ (load_plugin_from_rpk_data manifestNeedsWrite
          recordDisabledNoGrants).grantedPermissions
      ↔ "post:write" ∈ manifestNeedsWrite.permissionsRequired := by
  exact missing_or_invalid_grants_default_to_manifest_required manifestNeedsWrite
    recordDisabledNoGrants (Or.inl rfl) "post:write"

/-- C10: `get_plugin_permissions` returns the same hard-coded map
`{post:read ↦ true, post:write ↦ true, ai:chat ↦ true}` for every plugin id,
independent of any stored record, manifest or grant. -/
theorem get_plugin_permissions_constant (plugin_id : String) :
    get_plugin_permissions plugin_id
      = Except.ok [("post:read", true), ("post:write", true), ("ai:chat", true)] := by
  exact rfl
